import Mathlib

/-!
Verification of the CLA compliance engine (the `ghutil` package).

A shallow embedding, in Lean 4, of the compliance-decision and
state-reconciliation engine of the `code-review-bot` repository
(`ghutil/ghutil.go` and the data model of `config/config.go`), together
with proofs and refutations of the specified properties.

Go strings are modelled as lists of character codes (`List Nat`); the
ASCII fragment of `strings.ToLower` / `strings.EqualFold` is modelled
explicitly, which is faithful for the ASCII inputs the bot compares.
-/

namespace CrBot

/-- A Go string, modelled as the list of its character codes. -/
abbrev GoStr := List Nat

/-- Encode a Lean string literal as a `GoStr`. -/
def gs (s : String) : GoStr := s.toList.map Char.toNat

/-- ASCII lower-casing of a single character code, the character-level
content of Go's `strings.ToLower`. -/
def lowerByte (b : Nat) : Nat := if 65 ≤ b ∧ b ≤ 90 then b + 32 else b

/-- Go's `strings.ToLower` (ASCII fragment). -/
def goToLower (s : GoStr) : GoStr := s.map lowerByte

/-- Go's `strings.EqualFold` (ASCII fragment): case-insensitive equality. -/
def equalFold (a b : GoStr) : Bool := goToLower a == goToLower b

/-- Go's `strings.HasSuffix`. -/
def hasSuffix (s suf : GoStr) : Bool := suf.isSuffixOf s

/-- Go's `strings.TrimSuffix`. -/
def trimSuffix (s suf : GoStr) : GoStr :=
  if hasSuffix s suf then s.take (s.length - suf.length) else s

/-- Go's `strings.Replace(s, ".", "", -1)`: removes every dot (code 46). -/
def removeDots (s : GoStr) : GoStr := s.filter (fun b => b != 46)

/-- The `gmailSuffixes` array in `CanonicalizeEmail`
(`ghutil.go`): the two Gmail domain variants. -/
def gmailSuffixes : List GoStr := [gs "@gmail.com", gs "@googlemail.com"]

/-- One iteration of the suffix loop in `CanonicalizeEmail`: if the email has
the given domain suffix, strip the suffix, remove the dots from the local
part, and reassemble. -/
def applyGmailSuffix (email suf : GoStr) : GoStr :=
  if hasSuffix email suf then removeDots (trimSuffix email suf) ++ suf else email

/-- `CanonicalizeEmail` (`ghutil.go`): lower-cases the address, then runs the
dot-stripping step for each of the two Gmail domain variants in order. -/
def CanonicalizeEmail (email : GoStr) : GoStr :=
  gmailSuffixes.foldl applyGmailSuffix (goToLower email)

/-- `config.Account` (`config/config.go`): one identity in the roster or as
observed on a commit. -/
structure Account where
  name : GoStr
  email : GoStr
  login : GoStr
deriving DecidableEq, Repr

/-- `config.Company` (`config/config.go`). The `domains` field is carried in
the configuration but never consulted by the matching code. -/
structure Company where
  name : GoStr
  domains : List GoStr
  people : List Account
deriving DecidableEq, Repr

/-- `config.ExternalClaSigners` (`config/config.go`): identities whose CLA is
managed by an external process. -/
structure ExternalClaSigners where
  people : List Account
  bots : List Account
  companies : List Company
deriving DecidableEq, Repr

/-- `config.ClaSigners` (`config/config.go`): the roster. -/
structure ClaSigners where
  people : List Account
  bots : List Account
  companies : List Company
  external : Option ExternalClaSigners
deriving DecidableEq, Repr

/-- `MatchAccount` (`ghutil.go`): whether the account matches any roster
entry, comparing names exactly, emails up to canonicalization, and logins
case-insensitively. The Go `for` loop with early `return true` is the
disjunction over the list. -/
def MatchAccount (account : Account) (accounts : List Account) : Bool :=
  accounts.any fun account2 =>
    account.name == account2.name &&
    CanonicalizeEmail account.email == CanonicalizeEmail account2.email &&
    equalFold account.login account2.login

/-- The `Name`/`Email` part of `github.CommitAuthor` ("git details"),
with `nil`-able fields as `Option`. -/
structure GitUser where
  name : Option GoStr
  email : Option GoStr
deriving DecidableEq, Repr

/-- The `Author`/`Committer` part of `github.Commit` ("git details"). -/
structure GitCommit where
  author : Option GitUser
  committer : Option GitUser
deriving DecidableEq, Repr

/-- The `Login` part of `github.User` ("github details"). -/
structure GhUser where
  login : Option GoStr
deriving DecidableEq, Repr

/-- `github.RepositoryCommit`: the fields read by `ghutil`. -/
structure RepositoryCommit where
  sha : Option GoStr
  author : Option GhUser
  committer : Option GhUser
  commit : Option GitCommit
deriving DecidableEq, Repr

/-- `AuthorLogin` (`ghutil.go`): the author's GitHub login, or the empty
string when the association is absent. -/
def AuthorLogin (c : RepositoryCommit) : GoStr :=
  match c.author with
  | some u =>
    match u.login with
    | some l => l
    | none => []
  | none => []

/-- `CommitterLogin` (`ghutil.go`): the committer's GitHub login, or the
empty string when the association is absent. -/
def CommitterLogin (c : RepositoryCommit) : GoStr :=
  match c.committer with
  | some u =>
    match u.login with
    | some l => l
    | none => []
  | none => []

/-- The `authorName` extraction in `ProcessCommit`: git author name, or the
empty string. -/
def commitAuthorName (c : RepositoryCommit) : GoStr :=
  match c.commit with
  | some gc =>
    match gc.author with
    | some a => a.name.getD []
    | none => []
  | none => []

/-- The `authorEmail` extraction in `ProcessCommit`. -/
def commitAuthorEmail (c : RepositoryCommit) : GoStr :=
  match c.commit with
  | some gc =>
    match gc.author with
    | some a => a.email.getD []
    | none => []
  | none => []

/-- The `committerName` extraction in `ProcessCommit`. -/
def commitCommitterName (c : RepositoryCommit) : GoStr :=
  match c.commit with
  | some gc =>
    match gc.committer with
    | some a => a.name.getD []
    | none => []
  | none => []

/-- The `committerEmail` extraction in `ProcessCommit`. -/
def commitCommitterEmail (c : RepositoryCommit) : GoStr :=
  match c.commit with
  | some gc =>
    match gc.committer with
    | some a => a.email.getD []
    | none => []
  | none => []

/-- `CommitStatus` (`ghutil.go`). -/
structure CommitStatus where
  compliant : Bool
  nonComplianceReason : GoStr
  external : Bool
deriving DecidableEq, Repr

/-- The author-identity reason string set by `ProcessCommit`. -/
def reasonAuthorIdentity : GoStr :=
  gs "Please verify the author name, email, and GitHub username association are all correct and match CLA records."

/-- The committer-identity reason string set by `ProcessCommit`. -/
def reasonCommitterIdentity : GoStr :=
  gs "Please verify the committer name, email, and GitHub username association are all correct and match CLA records."

/-- The author-not-a-signer reason string set by `ProcessCommit`. -/
def reasonAuthorSigner : GoStr :=
  gs "Author of one or more commits is not listed as a CLA signer, either individual or as a member of an organization."

/-- The committer-not-a-signer reason string set by `ProcessCommit`. -/
def reasonCommitterSigner : GoStr :=
  gs "Committer of one or more commits is not listed as a CLA signer, either individual or as a member of an organization."

/-- The local `matchAccount` closure defined inside `ProcessCommit`
(`ghutil.go`): unlike the package-level `MatchAccount`, it compares the
name, email, and login all by exact string equality. -/
def processCommitMatchAccount (account : Account) (accounts : List Account) : Bool :=
  accounts.any fun account2 =>
    account.name == account2.name &&
    account.email == account2.email &&
    account.login == account2.login

/-- `ProcessCommit` (`ghutil.go`): per-commit compliance. The two identity
checks each overwrite the shared reason field; if both pass, the author is
matched (by the local exact matcher) against `people` and every company's
`people`, and the committer against `people`, `bots`, and every company's
`people`; the two roster-match failures again overwrite the reason in
order. -/
def ProcessCommit (commit : RepositoryCommit) (claSigners : ClaSigners) : CommitStatus :=
  let authorLogin := AuthorLogin commit
  let committerLogin := CommitterLogin commit
  let authorName := commitAuthorName commit
  let authorEmail := commitAuthorEmail commit
  let committerName := commitCommitterName commit
  let committerEmail := commitCommitterEmail commit
  let st0 : CommitStatus := { compliant := true, nonComplianceReason := [], external := false }
  let st1 :=
    if authorName == ([] : GoStr) || authorEmail == ([] : GoStr) || authorLogin == ([] : GoStr) then
      { st0 with compliant := false, nonComplianceReason := reasonAuthorIdentity }
    else st0
  let st2 :=
    if committerName == ([] : GoStr) || committerEmail == ([] : GoStr) || committerLogin == ([] : GoStr) then
      { st1 with compliant := false, nonComplianceReason := reasonCommitterIdentity }
    else st1
  if st2.compliant then
    let author : Account := { name := authorName, email := authorEmail, login := authorLogin }
    let committer : Account := { name := committerName, email := committerEmail, login := committerLogin }
    let authorClaMatchFound :=
      processCommitMatchAccount author claSigners.people ||
      claSigners.companies.any fun company => processCommitMatchAccount author company.people
    let committerClaMatchFound :=
      processCommitMatchAccount committer claSigners.people ||
      processCommitMatchAccount committer claSigners.bots ||
      claSigners.companies.any fun company => processCommitMatchAccount committer company.people
    let reason1 := if !authorClaMatchFound then reasonAuthorSigner else st2.nonComplianceReason
    let reason2 := if !committerClaMatchFound then reasonCommitterSigner else reason1
    { compliant := st2.compliant && authorClaMatchFound && committerClaMatchFound,
      nonComplianceReason := reason2, external := st2.external }
  else st2

/-- The local `matchLogins` closure inside `IsExternal` (`ghutil.go`):
login-only, case-sensitive matching of any collected login against any
account. -/
def matchLogins (logins : List GoStr) (accounts : List Account) : Bool :=
  accounts.any fun account => logins.any fun username => username == account.login

/-- `IsExternal` (`ghutil.go`): collects the non-empty author/committer
logins; matches them against the `external` roster section first; otherwise,
when no collected login occurs anywhere in the main roster and
`unknownAsExternal` is set, classifies the commit as external. -/
def IsExternal (commit : RepositoryCommit) (claSigners : ClaSigners) (unknownAsExternal : Bool) : Bool :=
  let logins : List GoStr :=
    (if AuthorLogin commit == ([] : GoStr) then [] else [AuthorLogin commit]) ++
    (if CommitterLogin commit == ([] : GoStr) then [] else [CommitterLogin commit])
  let externalMatch :=
    match claSigners.external with
    | some ext =>
      matchLogins logins ext.people || matchLogins logins ext.bots ||
      ext.companies.any fun company => matchLogins logins company.people
    | none => false
  if externalMatch then true
  else if !matchLogins logins claSigners.people && !matchLogins logins claSigners.bots then
    let claEntryFound := claSigners.companies.any fun company => matchLogins logins company.people
    if !claEntryFound && unknownAsExternal then true else false
  else false

/-- A collaborator error (`error` values returned by the GitHub services). -/
structure GoErr where
  msg : GoStr
deriving DecidableEq, Repr

/-- `PullRequestStatus` (`ghutil.go`). -/
structure PullRequestStatus where
  compliant : Bool
  nonComplianceReason : GoStr
  external : Bool
deriving DecidableEq, Repr

/-- The commit loop of `checkPullRequestCompliance` (`ghutil.go`): for each
commit in order, an external commit sets `external` and breaks out of the
loop; otherwise a non-compliant commit clears `compliant` and overwrites the
reason. The accumulator is the status being mutated. -/
def complianceLoop (claSigners : ClaSigners) (unknownAsExternal : Bool) :
    List RepositoryCommit → PullRequestStatus → PullRequestStatus
  | [], st => st
  | commit :: rest, st =>
    if IsExternal commit claSigners unknownAsExternal then
      { st with external := true }
    else
      let commitStatus := ProcessCommit commit claSigners
      let st' :=
        if commitStatus.compliant then st
        else { st with compliant := false, nonComplianceReason := commitStatus.nonComplianceReason }
      complianceLoop claSigners unknownAsExternal rest st'

/-- `checkPullRequestCompliance` (`ghutil.go`), with the `ListCommits`
collaborator call abstracted to its result. On a fetch error the zero-value
status (non-compliant, non-external) is returned together with the error; on
success the loop runs from the base status `Compliant = true`. -/
def checkPullRequestCompliance (listCommits : Except GoErr (List RepositoryCommit))
    (claSigners : ClaSigners) (unknownAsExternal : Bool) :
    PullRequestStatus × Option GoErr :=
  match listCommits with
  | .error e => ({ compliant := false, nonComplianceReason := [], external := false }, some e)
  | .ok commits =>
    (complianceLoop claSigners unknownAsExternal commits
      { compliant := true, nonComplianceReason := [], external := false }, none)

/-- The `LabelClaYes` constant (`ghutil.go`). -/
def LabelClaYes : GoStr := gs "cla: yes"

/-- The `LabelClaNo` constant (`ghutil.go`). -/
def LabelClaNo : GoStr := gs "cla: no"

/-- The `LabelClaExternal` constant (`ghutil.go`). -/
def LabelClaExternal : GoStr := gs "cla: external"

/-- `RepoClaLabelStatus` (`ghutil.go`): which CLA labels the repository has
defined. -/
structure RepoClaLabelStatus where
  hasYes : Bool
  hasNo : Bool
  hasExternal : Bool
deriving DecidableEq, Repr

/-- `IssueClaLabelStatus` (`ghutil.go`): which CLA labels are present on the
pull request. -/
structure IssueClaLabelStatus where
  hasYes : Bool
  hasNo : Bool
  hasExternal : Bool
deriving DecidableEq, Repr

/-- One write-collaborator operation on a pull request issue. -/
inductive MutationOp where
  | addLabel (label : GoStr)
  | removeLabel (label : GoStr)
  | createComment (body : GoStr)
deriving DecidableEq, Repr

/-- The mutations of a `processPullRequest` run: `intents` records every
mutation the code decided on (always logged), `writes` the collaborator
calls actually performed. -/
structure EffectLog where
  intents : List MutationOp
  writes : List MutationOp
deriving DecidableEq, Repr

/-- One call to the `addLabel`/`removeLabel`/`addComment` helper closures in
`processPullRequest`: the intent is always logged; the write-collaborator
call happens only when the `-update-repo` flag is set. -/
def emit (updateRepo : Bool) (op : MutationOp) (log : EffectLog) : EffectLog :=
  { intents := log.intents ++ [op],
    writes := log.writes ++ if updateRepo then [op] else [] }

/-- The label/comment reconciliation section of `processPullRequest`
(`ghutil.go`), transcribed call site by call site. For an external PR: add
`cla: external` when missing and defined on the repo, drop `cla: yes` /
`cla: no` if present, and return. Otherwise drop a stale `cla: external`,
then reconcile `cla: yes` / `cla: no` against the verdict; for a
non-compliant PR a comment is added when the `shouldAddComment` flag was set
by either branch. -/
def reconcileClaLabels (updateRepo : Bool) (st : PullRequestStatus)
    (issue : IssueClaLabelStatus) (repo : RepoClaLabelStatus) : EffectLog :=
  let log : EffectLog := { intents := [], writes := [] }
  if st.external then
    let log :=
      if !issue.hasExternal && repo.hasExternal then
        emit updateRepo (.addLabel LabelClaExternal) log
      else log
    let log := if issue.hasYes then emit updateRepo (.removeLabel LabelClaYes) log else log
    let log := if issue.hasNo then emit updateRepo (.removeLabel LabelClaNo) log else log
    log
  else
    let log := if issue.hasExternal then emit updateRepo (.removeLabel LabelClaExternal) log else log
    if st.compliant then
      let log := if issue.hasNo then emit updateRepo (.removeLabel LabelClaNo) log else log
      let log :=
        if !issue.hasYes && repo.hasYes then emit updateRepo (.addLabel LabelClaYes) log
        else log
      log
    else
      let pair :=
        if !issue.hasNo then
          ((if repo.hasNo then emit updateRepo (.addLabel LabelClaNo) log else log), true)
        else (log, false)
      let pair2 :=
        if issue.hasYes then (emit updateRepo (.removeLabel LabelClaYes) pair.1, true)
        else (pair.1, pair.2)
      let log :=
        if pair2.2 then emit updateRepo (.createComment st.nonComplianceReason) pair2.1
        else pair2.1
      log

/-- `github.Repository`: the field read by `ghutil` (`*repo.Name`). -/
structure Repository where
  name : GoStr
deriving DecidableEq, Repr

/-- `github.PullRequest`: the fields read by `ghutil`. -/
structure PullRequest where
  number : Nat
  title : GoStr
deriving DecidableEq, Repr

/-- The read collaborator: the responses of the GitHub services consumed by
`ghutil`, keyed the way the code calls them. -/
structure GhEnv where
  reposList : GoStr → Except GoErr (List Repository)
  repoGet : GoStr → GoStr → Except GoErr Repository
  pullsList : GoStr → GoStr → Except GoErr (List PullRequest)
  pullGet : GoStr → GoStr → Nat → Except GoErr PullRequest
  listCommits : GoStr → GoStr → Nat → Except GoErr (List RepositoryCommit)
  getLabel : GoStr → GoStr → GoStr → Except GoErr (Option Unit)
  issueLabels : GoStr → GoStr → Nat → Except GoErr (List GoStr)

/-- A `logging.Fatalf` call: the whole run halts (`log.Fatalf` exits the
process). -/
inductive FatalError where
  | fatal (msg : GoStr)
deriving DecidableEq, Repr

/-- `GitHubProcessSinglePullSpec` (`ghutil.go`). -/
structure GitHubProcessSinglePullSpec where
  org : GoStr
  repo : GoStr
  pull : PullRequest
  updateRepo : Bool
  unknownAsExternal : Bool
deriving Repr

/-- `GitHubProcessOrgRepoSpec` (`ghutil.go`). -/
structure GitHubProcessOrgRepoSpec where
  org : GoStr
  repo : GoStr
  pulls : List Nat
  updateRepo : Bool
  unknownAsExternal : Bool
deriving Repr

/-- `getAllRepos` (`ghutil.go`): a single repository when `repoName` is
non-empty, else all repositories of the organization. Either collaborator
error is a `logging.Fatalf`, halting the run. -/
def getAllRepos (env : GhEnv) (orgName repoName : GoStr) :
    Except FatalError (List Repository) :=
  if repoName = [] then
    match env.reposList orgName with
    | .error _ => .error (.fatal (gs "Error listing all repos in org"))
    | .ok repos => .ok repos
  else
    match env.repoGet orgName repoName with
    | .error _ => .error (.fatal (gs "Error looking up repo"))
    | .ok repo => .ok [repo]

/-- The `repoHasLabel` closure in `getRepoClaLabelStatus` (`ghutil.go`):
`label != nil && err == nil`. -/
def repoHasLabel (env : GhEnv) (orgName repoName labelName : GoStr) : Bool :=
  match env.getLabel orgName repoName labelName with
  | .ok (some _) => true
  | .ok none => false
  | .error _ => false

/-- `getRepoClaLabelStatus` (`ghutil.go`). -/
def getRepoClaLabelStatus (env : GhEnv) (orgName repoName : GoStr) : RepoClaLabelStatus :=
  { hasYes := repoHasLabel env orgName repoName LabelClaYes,
    hasNo := repoHasLabel env orgName repoName LabelClaNo,
    hasExternal := repoHasLabel env orgName repoName LabelClaExternal }

/-- `getIssueClaLabelStatus` (`ghutil.go`): an error listing the issue's
labels is logged and yields the zero-value status; otherwise each label name
is compared case-insensitively against the three CLA labels. -/
def getIssueClaLabelStatus (env : GhEnv) (orgName repoName : GoStr) (pullNumber : Nat) :
    IssueClaLabelStatus :=
  match env.issueLabels orgName repoName pullNumber with
  | .error _ => { hasYes := false, hasNo := false, hasExternal := false }
  | .ok labels =>
    labels.foldl
      (fun st name =>
        if equalFold name LabelClaYes then { st with hasYes := true }
        else if equalFold name LabelClaNo then { st with hasNo := true }
        else if equalFold name LabelClaExternal then { st with hasExternal := true }
        else st)
      { hasYes := false, hasNo := false, hasExternal := false }

/-- `processPullRequest` (`ghutil.go`): runs the compliance check (an error
is returned to the caller before anything else happens), reads the issue's
label status, and reconciles labels and comments. -/
def processPullRequest (env : GhEnv) (prSpec : GitHubProcessSinglePullSpec)
    (claSigners : ClaSigners) (repoClaLabelStatus : RepoClaLabelStatus) :
    Except GoErr (PullRequestStatus × EffectLog) :=
  let checked :=
    checkPullRequestCompliance (env.listCommits prSpec.org prSpec.repo prSpec.pull.number)
      claSigners prSpec.unknownAsExternal
  match checked.2 with
  | some e => .error e
  | none =>
    let issueClaLabelStatus := getIssueClaLabelStatus env prSpec.org prSpec.repo prSpec.pull.number
    .ok (checked.1, reconcileClaLabels prSpec.updateRepo checked.1 issueClaLabelStatus repoClaLabelStatus)

/-- The per-repository body of `processOrgRepo` (`ghutil.go`): collect the
pull requests (explicit numbers whose `Get` succeeds, or the full listing,
whose failure is a `logging.Fatalf`), then process each pull request in
order; a failed `processPullRequest` is logged and the loop continues with
the next pull request. -/
def processRepo (env : GhEnv) (repoSpec : GitHubProcessOrgRepoSpec) (claSigners : ClaSigners)
    (repoName : GoStr) :
    Except FatalError (List (Nat × Except GoErr (PullRequestStatus × EffectLog))) :=
  let pullsRes : Except FatalError (List PullRequest) :=
    if repoSpec.pulls.length > 0 then
      .ok (repoSpec.pulls.filterMap fun n => (env.pullGet repoSpec.org repoName n).toOption)
    else
      match env.pullsList repoSpec.org repoName with
      | .error _ => .error (.fatal (gs "Error listing pull requests"))
      | .ok ps => .ok ps
  match pullsRes with
  | .error f => .error f
  | .ok pulls =>
    let repoClaLabelStatus := getRepoClaLabelStatus env repoSpec.org repoName
    .ok (pulls.map fun pull =>
      (pull.number,
        processPullRequest env
          { org := repoSpec.org, repo := repoName, pull := pull,
            updateRepo := repoSpec.updateRepo, unknownAsExternal := repoSpec.unknownAsExternal }
          claSigners repoClaLabelStatus))

/-- `processOrgRepo` (`ghutil.go`): fetch the repositories (fatal on
failure), then run `processRepo` on each; a fatal error inside a repository
halts the whole run, while per-pull-request errors are recorded in the
outcome list and do not stop the iteration. -/
def processOrgRepo (env : GhEnv) (repoSpec : GitHubProcessOrgRepoSpec) (claSigners : ClaSigners) :
    Except FatalError
      (List (GoStr × List (Nat × Except GoErr (PullRequestStatus × EffectLog)))) :=
  match getAllRepos env repoSpec.org repoSpec.repo with
  | .error f => .error f
  | .ok repos =>
    repos.foldl
      (fun acc repo =>
        match acc with
        | .error f => .error f
        | .ok outs =>
          match processRepo env repoSpec claSigners repo.name with
          | .error f => .error f
          | .ok outcomes => .ok (outs ++ [(repo.name, outcomes)]))
      (.ok [])

/-- The reasons of the non-compliant commits of a list, in commit order
(used to state which reason the aggregation loop retains). -/
def nonCompliantReasons (cs : ClaSigners) (commits : List RepositoryCommit) : List GoStr :=
  (commits.filter fun c => !(ProcessCommit c cs).compliant).map
    fun c => (ProcessCommit c cs).nonComplianceReason

/-! Concrete fixtures used by witnesses and counterexamples. -/

/-- An empty roster. -/
def rosterEmpty : ClaSigners := { people := [], bots := [], companies := [], external := none }

/-- A roster with a single person whose email and login differ from a
candidate's only in letter case. -/
def rosterJane : ClaSigners :=
  { people := [{ name := gs "Jane Doe", email := gs "Jane@example.com", login := gs "JaneDoe" }],
    bots := [], companies := [], external := none }

/-- A commit by Jane Doe whose email and login agree with `rosterJane` up to
canonicalization/case, but not byte-for-byte. -/
def commitJane : RepositoryCommit :=
  { sha := some (gs "sha1"),
    author := some { login := some (gs "janedoe") },
    committer := some { login := some (gs "janedoe") },
    commit := some
      { author := some { name := some (gs "Jane Doe"), email := some (gs "jane@example.com") },
        committer := some { name := some (gs "Jane Doe"), email := some (gs "jane@example.com") } } }

/-- A roster with exactly John Doe as a person. -/
def rosterJohn : ClaSigners :=
  { people := [{ name := gs "John Doe", email := gs "john@example.com", login := gs "john-doe" }],
    bots := [], companies := [], external := none }

/-- A commit authored and committed by John Doe with fields byte-for-byte
equal to the `rosterJohn` entry. -/
def commitJohn : RepositoryCommit :=
  { sha := some (gs "sha2"),
    author := some { login := some (gs "john-doe") },
    committer := some { login := some (gs "john-doe") },
    commit := some
      { author := some { name := some (gs "John Doe"), email := some (gs "john@example.com") },
        committer := some { name := some (gs "John Doe"), email := some (gs "john@example.com") } } }

/-- A commit with full git identity but no GitHub user association on either
side. -/
def commitNoLogins : RepositoryCommit :=
  { sha := some (gs "sha3"),
    author := none,
    committer := none,
    commit := some
      { author := some { name := some (gs "Ada"), email := some (gs "ada@example.com") },
        committer := some { name := some (gs "Ada"), email := some (gs "ada@example.com") } } }

/-- A roster that is non-trivial in every section, none of whose logins is
empty. -/
def rosterMixed : ClaSigners :=
  { people := [{ name := gs "P", email := gs "p@example.com", login := gs "p1" }],
    bots := [{ name := gs "B", email := gs "b@example.com", login := gs "b1" }],
    companies := [{ name := gs "Acme", domains := [gs "acme.com"],
                    people := [{ name := gs "C", email := gs "c@acme.com", login := gs "c1" }] }],
    external := some
      { people := [{ name := gs "E", email := gs "e@example.com", login := gs "e1" }],
        bots := [], companies := [] } }

/-- An environment for a single pull request (number 7) with one fully
identified commit by an unknown contributor, and no labels on the issue. -/
def envUnknownContributor : GhEnv :=
  { reposList := fun _ => .ok [],
    repoGet := fun _ _ => .error { msg := gs "not found" },
    pullsList := fun _ _ => .ok [],
    pullGet := fun _ _ _ => .error { msg := gs "not found" },
    listCommits := fun _ _ _ => .ok [commitJohn],
    getLabel := fun _ _ _ => .ok none,
    issueLabels := fun _ _ _ => .ok [] }

/-- The pull-request spec used with `envUnknownContributor`, with mutation
enabled. -/
def specUnknownContributor : GitHubProcessSinglePullSpec :=
  { org := gs "org", repo := gs "repo", pull := { number := 7, title := gs "t" },
    updateRepo := true, unknownAsExternal := false }

/-- An environment for a single pull request (number 8) whose only commit
has no login associations, with a `cla: yes` label already on the issue. -/
def envExternalPull : GhEnv :=
  { reposList := fun _ => .ok [],
    repoGet := fun _ _ => .error { msg := gs "not found" },
    pullsList := fun _ _ => .ok [],
    pullGet := fun _ _ _ => .error { msg := gs "not found" },
    listCommits := fun _ _ _ => .ok [commitNoLogins],
    getLabel := fun _ _ _ => .ok (some ()),
    issueLabels := fun _ _ _ => .ok [gs "cla: yes"] }

/-- The pull-request spec used with `envExternalPull`: unknown identities
are treated as external, mutation enabled. -/
def specExternalPull : GitHubProcessSinglePullSpec :=
  { org := gs "org", repo := gs "repo", pull := { number := 8, title := gs "t" },
    updateRepo := true, unknownAsExternal := true }

/-- An environment whose repository listing fails. -/
def envRepoListFails : GhEnv :=
  { reposList := fun _ => .error { msg := gs "boom" },
    repoGet := fun _ _ => .error { msg := gs "boom" },
    pullsList := fun _ _ => .ok [],
    pullGet := fun _ _ _ => .error { msg := gs "boom" },
    listCommits := fun _ _ _ => .ok [],
    getLabel := fun _ _ _ => .ok none,
    issueLabels := fun _ _ _ => .ok [] }

/-- An organization-wide spec (no single repository, no explicit pull
numbers). -/
def specOrgWide : GitHubProcessOrgRepoSpec :=
  { org := gs "org", repo := [], pulls := [], updateRepo := false, unknownAsExternal := false }

/-- An environment with two open pull requests whose commit listings both
fail. -/
def envCommitsFail : GhEnv :=
  { reposList := fun _ => .ok [{ name := gs "repo" }],
    repoGet := fun _ _ => .error { msg := gs "boom" },
    pullsList := fun _ _ => .ok [{ number := 1, title := gs "a" }, { number := 2, title := gs "b" }],
    pullGet := fun _ _ _ => .error { msg := gs "boom" },
    listCommits := fun _ _ _ => .error { msg := gs "fetch failed" },
    getLabel := fun _ _ _ => .ok none,
    issueLabels := fun _ _ _ => .ok [] }

/-! Helper lemmas. -/

theorem matchLogins_nil (accounts : List Account) : matchLogins [] accounts = false := by
  simp [matchLogins]

theorem isExternal_no_logins (commit : RepositoryCommit) (cs : ClaSigners) (b : Bool)
    (ha : AuthorLogin commit = []) (hc : CommitterLogin commit = []) :
    IsExternal commit cs b = b := by
  unfold IsExternal
  rw [ha, hc]
  simp only [beq_self_eq_true, if_true, List.append_nil]
  have hext :
      (match cs.external with
        | some ext =>
          matchLogins [] ext.people || matchLogins [] ext.bots ||
          ext.companies.any fun company => matchLogins [] company.people
        | none => false) = false := by
    cases cs.external with
    | none => rfl
    | some ext =>
      simp [matchLogins_nil]
  rw [hext]
  have hco : (cs.companies.any fun company => matchLogins [] company.people) = false := by
    simp only [List.any_eq_false]
    intro co _
    simp [matchLogins_nil]
  simp [matchLogins_nil, hco]

/-- C10: a commit with no author login and no committer login never matches
any roster section, so `IsExternal` returns exactly the value of the
`unknownAsExternal` flag; and since the classifier runs before the
compliance checker, with the flag set the pull request is classified
external rather than non-compliant. -/
theorem c10_no_logins_external (commit : RepositoryCommit) (cs : ClaSigners) (b : Bool)
    (ha : AuthorLogin commit = []) (hc : CommitterLogin commit = []) :
    IsExternal commit cs b = b ∧
    (checkPullRequestCompliance (.ok [commit]) cs true).1.external = true := by
  refine ⟨isExternal_no_logins commit cs b ha hc, ?_⟩
  have h1 : IsExternal commit cs true = true := isExternal_no_logins commit cs true ha hc
  simp [checkPullRequestCompliance, complianceLoop, h1]

/-- C10 witness: a concrete commit with full git identity but no GitHub
associations, against a roster that is non-trivial in every section. -/
theorem c10_witness :
    IsExternal commitNoLogins rosterMixed true = true ∧
    (checkPullRequestCompliance (.ok [commitNoLogins]) rosterMixed true).1.external = true := by
  have h := c10_no_logins_external commitNoLogins rosterMixed true (by rfl) (by rfl)
  exact ⟨h.1, h.2⟩

/-- C7: `MatchAccount` returns true exactly when some roster entry agrees
with the candidate on the name byte-for-byte, on the email up to
canonicalization, and on the login up to letter case. -/
theorem c7_matchAccount_iff (account : Account) (accounts : List Account) :
    MatchAccount account accounts = true ↔
      ∃ account2 ∈ accounts,
        account.name = account2.name ∧
        CanonicalizeEmail account.email = CanonicalizeEmail account2.email ∧
        goToLower account.login = goToLower account2.login := by
  simp [MatchAccount, List.any_eq_true, equalFold, and_assoc]

theorem complianceLoop_cons_ext (cs : ClaSigners) (b : Bool) (c : RepositoryCommit)
    (rest : List RepositoryCommit) (st : PullRequestStatus)
    (hc : IsExternal c cs b = true) :
    complianceLoop cs b (c :: rest) st = { st with external := true } := by
  simp [complianceLoop, hc]

theorem complianceLoop_cons_noext (cs : ClaSigners) (b : Bool) (c : RepositoryCommit)
    (rest : List RepositoryCommit) (st : PullRequestStatus)
    (hc : IsExternal c cs b = false) :
    complianceLoop cs b (c :: rest) st =
      complianceLoop cs b rest
        (if (ProcessCommit c cs).compliant then st
         else { st with compliant := false,
                        nonComplianceReason := (ProcessCommit c cs).nonComplianceReason }) := by
  simp [complianceLoop, hc]

theorem complianceLoop_first_external (cs : ClaSigners) (b : Bool) (c : RepositoryCommit)
    (post : List RepositoryCommit) (hc : IsExternal c cs b = true) :
    ∀ (pre : List RepositoryCommit) (st : PullRequestStatus),
      (∀ x ∈ pre, IsExternal x cs b = false) →
      complianceLoop cs b (pre ++ c :: post) st = complianceLoop cs b (pre ++ [c]) st ∧
      (complianceLoop cs b (pre ++ [c]) st).external = true := by
  intro pre
  induction pre with
  | nil =>
    intro st _
    constructor
    · simp only [List.nil_append]
      rw [complianceLoop_cons_ext cs b c post st hc, complianceLoop_cons_ext cs b c [] st hc]
    · simp only [List.nil_append]
      rw [complianceLoop_cons_ext cs b c [] st hc]
  | cons x xs ih =>
    intro st h
    have hx : IsExternal x cs b = false := h x (by simp)
    have hxs : ∀ y ∈ xs, IsExternal y cs b = false := fun y hy => h y (by simp [hy])
    constructor
    · simp only [List.cons_append]
      rw [complianceLoop_cons_noext cs b x _ st hx, complianceLoop_cons_noext cs b x _ st hx]
      exact (ih _ hxs).1
    · simp only [List.cons_append]
      rw [complianceLoop_cons_noext cs b x _ st hx]
      exact (ih _ hxs).2

/-- C2: if the first commit classified external is the `i`-th one, the
pull-request status has `External = true` and is computed without
evaluating any commit after the `i`-th: the result over the whole list
equals the result over the initial segment that ends at the external commit. -/
theorem c2_external_short_circuit (cs : ClaSigners) (b : Bool)
    (pre post : List RepositoryCommit) (c : RepositoryCommit)
    (hpre : ∀ x ∈ pre, IsExternal x cs b = false) (hc : IsExternal c cs b = true) :
    (checkPullRequestCompliance (.ok (pre ++ c :: post)) cs b).1.external = true ∧
    checkPullRequestCompliance (.ok (pre ++ c :: post)) cs b =
      checkPullRequestCompliance (.ok (pre ++ [c])) cs b := by
  have h := complianceLoop_first_external cs b c post hc pre
    { compliant := true, nonComplianceReason := [], external := false } hpre
  constructor
  · simp only [checkPullRequestCompliance]
    rw [h.1]
    exact h.2
  · simp only [checkPullRequestCompliance]
    rw [h.1]

/-- C2 witness: one external commit followed by a further commit; the status
is external and the trailing commit does not affect the result. -/
theorem c2_witness :
    (∀ x ∈ ([] : List RepositoryCommit), IsExternal x rosterMixed true = false) ∧
    IsExternal commitNoLogins rosterMixed true = true ∧
    ((checkPullRequestCompliance (.ok ([] ++ commitNoLogins :: [commitJohn])) rosterMixed true).1.external = true ∧
     checkPullRequestCompliance (.ok ([] ++ commitNoLogins :: [commitJohn])) rosterMixed true =
       checkPullRequestCompliance (.ok ([] ++ [commitNoLogins])) rosterMixed true) := by
  refine ⟨by simp, by decide, ?_⟩
  exact c2_external_short_circuit rosterMixed true [] [commitJohn] commitNoLogins
    (by simp) (by decide)

theorem getLast?_getD_cons {α : Type} (a : α) (l : List α) (d : α) :
    ((a :: l).getLast?).getD d = (l.getLast?).getD a := by
  induction l generalizing a d with
  | nil => rfl
  | cons x xs ih => rw [List.getLast?_cons_cons, ih x d, ih x a]

theorem complianceLoop_no_external (cs : ClaSigners) (b : Bool) :
    ∀ (commits : List RepositoryCommit) (st : PullRequestStatus),
      (∀ x ∈ commits, IsExternal x cs b = false) →
      complianceLoop cs b commits st =
        { compliant := st.compliant && commits.all fun c => (ProcessCommit c cs).compliant,
          nonComplianceReason :=
            ((nonCompliantReasons cs commits).getLast?).getD st.nonComplianceReason,
          external := st.external } := by
  intro commits
  induction commits with
  | nil =>
    intro st _
    simp [complianceLoop, nonCompliantReasons]
  | cons c rest ih =>
    intro st h
    have hc : IsExternal c cs b = false := h c (by simp)
    have hrest : ∀ y ∈ rest, IsExternal y cs b = false := fun y hy => h y (by simp [hy])
    rw [complianceLoop_cons_noext cs b c rest st hc]
    by_cases hcomp : (ProcessCommit c cs).compliant = true
    · rw [if_pos hcomp, ih st hrest]
      simp [nonCompliantReasons, hcomp]
    · rw [if_neg hcomp, ih _ hrest]
      simp only [Bool.not_eq_true] at hcomp
      simp [nonCompliantReasons, hcomp, getLast?_getD_cons]

/-- C3: over a commit list with no external commit and at least one
non-compliant commit, the pull request is non-compliant and the reported
reason is that of the last non-compliant commit (earlier reasons are
overwritten). -/
theorem c3_last_reason_wins (cs : ClaSigners) (b : Bool)
    (commits : List RepositoryCommit) (r : GoStr)
    (hext : ∀ x ∈ commits, IsExternal x cs b = false)
    (hlast : (nonCompliantReasons cs commits).getLast? = some r) :
    (checkPullRequestCompliance (.ok commits) cs b).1.compliant = false ∧
    (checkPullRequestCompliance (.ok commits) cs b).1.nonComplianceReason = r := by
  have hloop := complianceLoop_no_external cs b commits
    { compliant := true, nonComplianceReason := [], external := false } hext
  have hne : nonCompliantReasons cs commits ≠ [] := by
    intro hnil
    rw [hnil] at hlast
    simp at hlast
  have hbad : ∃ x ∈ commits, (ProcessCommit x cs).compliant = false := by
    by_contra hall
    push_neg at hall
    have : nonCompliantReasons cs commits = [] := by
      simp only [nonCompliantReasons, List.map_eq_nil_iff, List.filter_eq_nil_iff]
      intro x hx
      simp [hall x hx]
    exact hne this
  have hallfalse : (commits.all fun c => (ProcessCommit c cs).compliant) = false := by
    obtain ⟨x, hx, hxc⟩ := hbad
    simp only [List.all_eq_false]
    exact ⟨x, hx, by simp [hxc]⟩
  constructor
  · simp only [checkPullRequestCompliance]
    rw [hloop]
    simp [hallfalse]
  · simp only [checkPullRequestCompliance]
    rw [hloop]
    simp [hlast]

/-- C3 witness: a single non-compliant, non-external commit; the PR verdict
is non-compliant with that commit's reason. -/
theorem c3_witness :
    (checkPullRequestCompliance (.ok [commitJohn]) rosterEmpty false).1.compliant = false ∧
    (checkPullRequestCompliance (.ok [commitJohn]) rosterEmpty false).1.nonComplianceReason =
      reasonCommitterSigner := by
  exact c3_last_reason_wins rosterEmpty false [commitJohn] reasonCommitterSigner
    (by decide) (by decide)

theorem label_yes_ne_no : LabelClaYes ≠ LabelClaNo := by decide

theorem label_yes_ne_ext : LabelClaYes ≠ LabelClaExternal := by decide

theorem label_no_ne_ext : LabelClaNo ≠ LabelClaExternal := by decide

theorem processPullRequest_ok (env : GhEnv) (prSpec : GitHubProcessSinglePullSpec)
    (cs : ClaSigners) (repoSt : RepoClaLabelStatus) (st : PullRequestStatus) (log : EffectLog)
    (h : processPullRequest env prSpec cs repoSt = .ok (st, log)) :
    st = (checkPullRequestCompliance (env.listCommits prSpec.org prSpec.repo prSpec.pull.number)
            cs prSpec.unknownAsExternal).1 ∧
    log = reconcileClaLabels prSpec.updateRepo st
            (getIssueClaLabelStatus env prSpec.org prSpec.repo prSpec.pull.number) repoSt := by
  unfold processPullRequest at h
  simp only [] at h
  split at h
  · exact absurd h (by simp)
  · simp only [Except.ok.injEq, Prod.mk.injEq] at h
    obtain ⟨h1, h2⟩ := h
    exact ⟨h1.symm, by rw [← h2, h1]⟩

theorem reconcile_external_intents (u : Bool) (st : PullRequestStatus)
    (issue : IssueClaLabelStatus) (repoSt : RepoClaLabelStatus) (hx : st.external = true) :
    (reconcileClaLabels u st issue repoSt).intents =
      (if issue.hasExternal = false ∧ repoSt.hasExternal = true
       then [MutationOp.addLabel LabelClaExternal] else []) ++
      (if issue.hasYes = true then [MutationOp.removeLabel LabelClaYes] else []) ++
      (if issue.hasNo = true then [MutationOp.removeLabel LabelClaNo] else []) := by
  obtain ⟨iy, ino, iex⟩ := issue
  obtain ⟨ry, rn, rx⟩ := repoSt
  cases iy <;> cases ino <;> cases iex <;> cases rx <;>
    simp [reconcileClaLabels, emit, hx]

theorem reconcile_noncompliant (u : Bool) (st : PullRequestStatus)
    (issue : IssueClaLabelStatus) (repoSt : RepoClaLabelStatus)
    (hx : st.external = false) (hc : st.compliant = false) :
    (MutationOp.createComment st.nonComplianceReason ∈ (reconcileClaLabels u st issue repoSt).intents ↔
      (issue.hasNo = false ∨ issue.hasYes = true)) ∧
    (MutationOp.addLabel LabelClaNo ∈ (reconcileClaLabels u st issue repoSt).intents ↔
      (issue.hasNo = false ∧ repoSt.hasNo = true)) ∧
    (MutationOp.removeLabel LabelClaYes ∈ (reconcileClaLabels u st issue repoSt).intents ↔
      issue.hasYes = true) := by
  obtain ⟨iy, ino, iex⟩ := issue
  obtain ⟨ry, rn, rx⟩ := repoSt
  cases iy <;> cases ino <;> cases iex <;> cases rn <;>
    simp [reconcileClaLabels, emit, hx, hc, label_yes_ne_no, label_yes_ne_ext, label_no_ne_ext,
      Ne.symm label_yes_ne_no, Ne.symm label_yes_ne_ext, Ne.symm label_no_ne_ext]

theorem reconcile_writes_false (st : PullRequestStatus)
    (issue : IssueClaLabelStatus) (repoSt : RepoClaLabelStatus) :
    (reconcileClaLabels false st issue repoSt).writes = [] := by
  obtain ⟨sc, sr, sx⟩ := st
  obtain ⟨iy, ino, iex⟩ := issue
  obtain ⟨ry, rn, rx⟩ := repoSt
  cases sc <;> cases sx <;> cases iy <;> cases ino <;> cases iex <;> cases ry <;> cases rn <;> cases rx <;>
    simp [reconcileClaLabels, emit]

theorem reconcile_intents_indep (u v : Bool) (st : PullRequestStatus)
    (issue : IssueClaLabelStatus) (repoSt : RepoClaLabelStatus) :
    (reconcileClaLabels u st issue repoSt).intents = (reconcileClaLabels v st issue repoSt).intents := by
  obtain ⟨sc, sr, sx⟩ := st
  obtain ⟨iy, ino, iex⟩ := issue
  obtain ⟨ry, rn, rx⟩ := repoSt
  cases sc <;> cases sx <;> cases iy <;> cases ino <;> cases iex <;> cases ry <;> cases rn <;> cases rx <;>
    simp [reconcileClaLabels, emit]

theorem reconcile_external_props (u : Bool) (st : PullRequestStatus)
    (issue : IssueClaLabelStatus) (repoSt : RepoClaLabelStatus) (hx : st.external = true) :
    (∀ r, MutationOp.createComment r ∉ (reconcileClaLabels u st issue repoSt).intents) ∧
    MutationOp.addLabel LabelClaYes ∉ (reconcileClaLabels u st issue repoSt).intents ∧
    MutationOp.addLabel LabelClaNo ∉ (reconcileClaLabels u st issue repoSt).intents ∧
    MutationOp.removeLabel LabelClaExternal ∉ (reconcileClaLabels u st issue repoSt).intents ∧
    (MutationOp.addLabel LabelClaExternal ∈ (reconcileClaLabels u st issue repoSt).intents ↔
      (repoSt.hasExternal = true ∧ issue.hasExternal = false)) ∧
    (MutationOp.removeLabel LabelClaYes ∈ (reconcileClaLabels u st issue repoSt).intents ↔
      issue.hasYes = true) ∧
    (MutationOp.removeLabel LabelClaNo ∈ (reconcileClaLabels u st issue repoSt).intents ↔
      issue.hasNo = true) := by
  obtain ⟨iy, ino, iex⟩ := issue
  obtain ⟨ry, rn, rx⟩ := repoSt
  cases iy <;> cases ino <;> cases iex <;> cases rx <;>
    simp [reconcileClaLabels, emit, hx, label_yes_ne_no, label_yes_ne_ext, label_no_ne_ext,
      Ne.symm label_yes_ne_no, Ne.symm label_yes_ne_ext, Ne.symm label_no_ne_ext]

/-- C5: for an external pull request, `processPullRequest` never intends a
comment, never adds the signed or not-signed label, and never removes the
external label: it adds the external label exactly when the repository
defines it and the pull request lacks it, and removes the signed/not-signed
labels exactly when present. -/
theorem c5_external_skips_enforcement (env : GhEnv) (prSpec : GitHubProcessSinglePullSpec)
    (cs : ClaSigners) (repoSt : RepoClaLabelStatus) (st : PullRequestStatus) (log : EffectLog)
    (h : processPullRequest env prSpec cs repoSt = .ok (st, log)) (hx : st.external = true) :
    (∀ r, MutationOp.createComment r ∉ log.intents) ∧
    MutationOp.addLabel LabelClaYes ∉ log.intents ∧
    MutationOp.addLabel LabelClaNo ∉ log.intents ∧
    MutationOp.removeLabel LabelClaExternal ∉ log.intents ∧
    (MutationOp.addLabel LabelClaExternal ∈ log.intents ↔
      (repoSt.hasExternal = true ∧
       (getIssueClaLabelStatus env prSpec.org prSpec.repo prSpec.pull.number).hasExternal = false)) ∧
    (MutationOp.removeLabel LabelClaYes ∈ log.intents ↔
      (getIssueClaLabelStatus env prSpec.org prSpec.repo prSpec.pull.number).hasYes = true) ∧
    (MutationOp.removeLabel LabelClaNo ∈ log.intents ↔
      (getIssueClaLabelStatus env prSpec.org prSpec.repo prSpec.pull.number).hasNo = true) := by
  obtain ⟨h1, h2⟩ := processPullRequest_ok env prSpec cs repoSt st log h
  rw [h2]
  exact reconcile_external_props prSpec.updateRepo st _ repoSt hx

/-- C5 witness: an external pull request (single commit with no login
associations, unknown-as-external enabled) carrying a stale `cla: yes`
label, on a repository defining all three labels. -/
theorem c5_witness :
    (∀ r, MutationOp.createComment r ∉
      ({ intents := [MutationOp.addLabel LabelClaExternal, MutationOp.removeLabel LabelClaYes],
         writes := [MutationOp.addLabel LabelClaExternal, MutationOp.removeLabel LabelClaYes] } :
        EffectLog).intents) ∧
    MutationOp.addLabel LabelClaYes ∉
      ([MutationOp.addLabel LabelClaExternal, MutationOp.removeLabel LabelClaYes] : List MutationOp) ∧
    MutationOp.addLabel LabelClaNo ∉
      ([MutationOp.addLabel LabelClaExternal, MutationOp.removeLabel LabelClaYes] : List MutationOp) ∧
    MutationOp.removeLabel LabelClaExternal ∉
      ([MutationOp.addLabel LabelClaExternal, MutationOp.removeLabel LabelClaYes] : List MutationOp) ∧
    (MutationOp.addLabel LabelClaExternal ∈
        ([MutationOp.addLabel LabelClaExternal, MutationOp.removeLabel LabelClaYes] : List MutationOp) ↔
      (({ hasYes := true, hasNo := true, hasExternal := true } : RepoClaLabelStatus).hasExternal = true ∧
       (getIssueClaLabelStatus envExternalPull specExternalPull.org specExternalPull.repo
          specExternalPull.pull.number).hasExternal = false)) ∧
    (MutationOp.removeLabel LabelClaYes ∈
        ([MutationOp.addLabel LabelClaExternal, MutationOp.removeLabel LabelClaYes] : List MutationOp) ↔
      (getIssueClaLabelStatus envExternalPull specExternalPull.org specExternalPull.repo
         specExternalPull.pull.number).hasYes = true) ∧
    (MutationOp.removeLabel LabelClaNo ∈
        ([MutationOp.addLabel LabelClaExternal, MutationOp.removeLabel LabelClaYes] : List MutationOp) ↔
      (getIssueClaLabelStatus envExternalPull specExternalPull.org specExternalPull.repo
         specExternalPull.pull.number).hasNo = true) := by
  exact c5_external_skips_enforcement envExternalPull specExternalPull rosterMixed
    { hasYes := true, hasNo := true, hasExternal := true }
    { compliant := true, nonComplianceReason := [], external := true }
    { intents := [MutationOp.addLabel LabelClaExternal, MutationOp.removeLabel LabelClaYes],
      writes := [MutationOp.addLabel LabelClaExternal, MutationOp.removeLabel LabelClaYes] }
    (by rfl) (by rfl)

/-- C4 counterexample: a non-compliant, non-external pull request on a
repository that does not define the `cla: no` label, with no labels on the
issue: a comment is created (mutation enabled) although the reconciliation
neither adds the not-signed label nor removes the signed label. -/
theorem c4_counterexample :
    processPullRequest envUnknownContributor specUnknownContributor rosterEmpty
        { hasYes := false, hasNo := false, hasExternal := false } =
      .ok ({ compliant := false, nonComplianceReason := reasonCommitterSigner, external := false },
           { intents := [MutationOp.createComment reasonCommitterSigner],
             writes := [MutationOp.createComment reasonCommitterSigner] }) ∧
    MutationOp.addLabel LabelClaNo ∉ [MutationOp.createComment reasonCommitterSigner] ∧
    MutationOp.removeLabel LabelClaYes ∉ [MutationOp.createComment reasonCommitterSigner] := by
  refine ⟨by rfl, by decide, by decide⟩

/-- C4 (amended): for a non-compliant, non-external pull request, a comment
is intended exactly when the not-signed label is absent from the pull
request (whether or not the repository defines it, i.e. whether or not an
add is actually possible) or the signed label is present (and hence newly
removed). -/
theorem c4_comment_iff_label_attempt (env : GhEnv) (prSpec : GitHubProcessSinglePullSpec)
    (cs : ClaSigners) (repoSt : RepoClaLabelStatus) (st : PullRequestStatus) (log : EffectLog)
    (h : processPullRequest env prSpec cs repoSt = .ok (st, log))
    (hx : st.external = false) (hc : st.compliant = false) :
    MutationOp.createComment st.nonComplianceReason ∈ log.intents ↔
      ((getIssueClaLabelStatus env prSpec.org prSpec.repo prSpec.pull.number).hasNo = false ∨
       (getIssueClaLabelStatus env prSpec.org prSpec.repo prSpec.pull.number).hasYes = true) := by
  obtain ⟨h1, h2⟩ := processPullRequest_ok env prSpec cs repoSt st log h
  rw [h2]
  exact (reconcile_noncompliant prSpec.updateRepo st _ repoSt hx hc).1

/-- C4 witness: the concrete non-compliant pull request of the
counterexample environment; the comment is intended and the label
conditions hold. -/
theorem c4_witness :
    MutationOp.createComment reasonCommitterSigner ∈
        ({ intents := [MutationOp.createComment reasonCommitterSigner],
           writes := [MutationOp.createComment reasonCommitterSigner] } : EffectLog).intents ↔
      ((getIssueClaLabelStatus envUnknownContributor specUnknownContributor.org
          specUnknownContributor.repo specUnknownContributor.pull.number).hasNo = false ∨
       (getIssueClaLabelStatus envUnknownContributor specUnknownContributor.org
          specUnknownContributor.repo specUnknownContributor.pull.number).hasYes = true) := by
  exact c4_comment_iff_label_attempt envUnknownContributor specUnknownContributor rosterEmpty
    { hasYes := false, hasNo := false, hasExternal := false }
    { compliant := false, nonComplianceReason := reasonCommitterSigner, external := false }
    { intents := [MutationOp.createComment reasonCommitterSigner],
      writes := [MutationOp.createComment reasonCommitterSigner] }
    (by rfl) (by rfl) (by rfl)

/-- C6: with the apply-mutations toggle off, `processPullRequest` performs
no write-collaborator call, while the verdict and the intended mutations
are the same as with the toggle on. -/
theorem c6_update_repo_toggle (env : GhEnv) (prSpec : GitHubProcessSinglePullSpec)
    (cs : ClaSigners) (repoSt : RepoClaLabelStatus) :
    ((processPullRequest env { prSpec with updateRepo := false } cs repoSt).map
        fun p => p.2.writes) =
      ((processPullRequest env { prSpec with updateRepo := false } cs repoSt).map
        fun _ => ([] : List MutationOp)) ∧
    ((processPullRequest env { prSpec with updateRepo := false } cs repoSt).map
        fun p => (p.1, p.2.intents)) =
      ((processPullRequest env { prSpec with updateRepo := true } cs repoSt).map
        fun p => (p.1, p.2.intents)) := by
  obtain ⟨o, r, p, u0, b⟩ := prSpec
  unfold processPullRequest
  simp only []
  cases hres : (checkPullRequestCompliance (env.listCommits o r p.number) cs b).2 with
  | some e => simp [Except.map]
  | none =>
    refine ⟨?_, ?_⟩
    · simp [Except.map, reconcile_writes_false]
    · simp [Except.map, reconcile_intents_indep false true]

/-- C1 counterexample: a commit whose six identity fields are all
non-empty and whose author and committer both match the roster under
`MatchAccount`'s rules (canonicalized email, case-insensitive login), yet
`ProcessCommit` — which uses its local byte-for-byte matcher — reports the
commit non-compliant. -/
theorem c1_counterexample :
    commitAuthorName commitJane ≠ [] ∧ commitAuthorEmail commitJane ≠ [] ∧
    AuthorLogin commitJane ≠ [] ∧
    commitCommitterName commitJane ≠ [] ∧ commitCommitterEmail commitJane ≠ [] ∧
    CommitterLogin commitJane ≠ [] ∧
    MatchAccount { name := commitAuthorName commitJane, email := commitAuthorEmail commitJane,
                   login := AuthorLogin commitJane } rosterJane.people = true ∧
    MatchAccount { name := commitCommitterName commitJane, email := commitCommitterEmail commitJane,
                   login := CommitterLogin commitJane } rosterJane.people = true ∧
    (ProcessCommit commitJane rosterJane).compliant = false := by
  decide

/-- C1 (amended): for a commit whose six identity fields are all non-empty,
`ProcessCommit` reports compliance exactly when the author matches some
entry of `people` or some company's `people` and the committer matches some
entry of `people`, `bots`, or some company's `people` — where an account
matches a roster entry when the name, the email, and the login are all
equal by exact string comparison (the local matcher inside
`ProcessCommit`), not under the canonicalized/case-insensitive rules of
`MatchAccount`. -/
theorem c1_amended_exact_match (commit : RepositoryCommit) (cs : ClaSigners)
    (ha1 : commitAuthorName commit ≠ []) (ha2 : commitAuthorEmail commit ≠ [])
    (ha3 : AuthorLogin commit ≠ [])
    (hc1 : commitCommitterName commit ≠ []) (hc2 : commitCommitterEmail commit ≠ [])
    (hc3 : CommitterLogin commit ≠ []) :
    (ProcessCommit commit cs).compliant = true ↔
      ((processCommitMatchAccount
          { name := commitAuthorName commit, email := commitAuthorEmail commit,
            login := AuthorLogin commit } cs.people = true ∨
        ∃ company ∈ cs.companies,
          processCommitMatchAccount
            { name := commitAuthorName commit, email := commitAuthorEmail commit,
              login := AuthorLogin commit } company.people = true) ∧
       (processCommitMatchAccount
          { name := commitCommitterName commit, email := commitCommitterEmail commit,
            login := CommitterLogin commit } cs.people = true ∨
        processCommitMatchAccount
          { name := commitCommitterName commit, email := commitCommitterEmail commit,
            login := CommitterLogin commit } cs.bots = true ∨
        ∃ company ∈ cs.companies,
          processCommitMatchAccount
            { name := commitCommitterName commit, email := commitCommitterEmail commit,
              login := CommitterLogin commit } company.people = true)) := by
  have e1 : (commitAuthorName commit == ([] : GoStr)) = false := by
    simpa using ha1
  have e2 : (commitAuthorEmail commit == ([] : GoStr)) = false := by
    simpa using ha2
  have e3 : (AuthorLogin commit == ([] : GoStr)) = false := by
    simpa using ha3
  have f1 : (commitCommitterName commit == ([] : GoStr)) = false := by
    simpa using hc1
  have f2 : (commitCommitterEmail commit == ([] : GoStr)) = false := by
    simpa using hc2
  have f3 : (CommitterLogin commit == ([] : GoStr)) = false := by
    simpa using hc3
  unfold ProcessCommit
  simp [e1, e2, e3, f1, f2, f3, List.any_eq_true, and_assoc, or_assoc]

/-- C1 witness (for the amended claim): a fully identified commit whose
fields equal the single roster entry byte-for-byte is compliant. -/
theorem c1_witness :
    (ProcessCommit commitJohn rosterJohn).compliant = true ↔
      ((processCommitMatchAccount
          { name := commitAuthorName commitJohn, email := commitAuthorEmail commitJohn,
            login := AuthorLogin commitJohn } rosterJohn.people = true ∨
        ∃ company ∈ rosterJohn.companies,
          processCommitMatchAccount
            { name := commitAuthorName commitJohn, email := commitAuthorEmail commitJohn,
              login := AuthorLogin commitJohn } company.people = true) ∧
       (processCommitMatchAccount
          { name := commitCommitterName commitJohn, email := commitCommitterEmail commitJohn,
            login := CommitterLogin commitJohn } rosterJohn.people = true ∨
        processCommitMatchAccount
          { name := commitCommitterName commitJohn, email := commitCommitterEmail commitJohn,
            login := CommitterLogin commitJohn } rosterJohn.bots = true ∨
        ∃ company ∈ rosterJohn.companies,
          processCommitMatchAccount
            { name := commitCommitterName commitJohn, email := commitCommitterEmail commitJohn,
              login := CommitterLogin commitJohn } company.people = true)) := by
  exact c1_amended_exact_match commitJohn rosterJohn
    (by decide) (by decide) (by decide) (by decide) (by decide) (by decide)

/-- C9 counterexample: a failing repository listing does not get skipped at
repository granularity — it is a `logging.Fatalf`, halting the whole run
before anything is processed. -/
theorem c9_counterexample :
    processOrgRepo envRepoListFails specOrgWide rosterEmpty =
      .error (.fatal (gs "Error listing all repos in org")) := by
  rfl

/-- C9 (amended): a failing commit-list fetch is propagated from the
compliance check as an explicit error value (never as a compliance verdict)
and is recovered at pull-request granularity — every sibling pull request
of the repository still yields an outcome; but a failing repository listing
is a fatal error that halts the whole run. -/
theorem c9_amended_error_granularity :
    (∀ (e : GoErr) (cs : ClaSigners) (b : Bool),
      checkPullRequestCompliance (.error e) cs b =
        ({ compliant := false, nonComplianceReason := [], external := false }, some e)) ∧
    (∀ (env : GhEnv) (repoSpec : GitHubProcessOrgRepoSpec) (cs : ClaSigners) (repoName : GoStr)
        (pulls : List PullRequest),
      repoSpec.pulls = [] →
      env.pullsList repoSpec.org repoName = .ok pulls →
      ∃ outcomes, processRepo env repoSpec cs repoName = .ok outcomes ∧
        outcomes.length = pulls.length) ∧
    (∀ (env : GhEnv) (repoSpec : GitHubProcessOrgRepoSpec) (cs : ClaSigners) (e : GoErr),
      repoSpec.repo = [] →
      env.reposList repoSpec.org = .error e →
      processOrgRepo env repoSpec cs = .error (.fatal (gs "Error listing all repos in org"))) := by
  refine ⟨fun e cs b => rfl, ?_, ?_⟩
  · intro env repoSpec cs repoName pulls h hok
    unfold processRepo
    simp only [h, hok, List.length_nil, gt_iff_lt, Nat.lt_irrefl, if_false]
    exact ⟨_, rfl, by simp⟩
  · intro env repoSpec cs e h hok
    unfold processOrgRepo getAllRepos
    simp only [h, hok, if_true]

/-- C9 witness: the three granularities at concrete inputs — an error value
from the compliance check, a repository with two pull requests whose commit
listings both fail yet both yield outcomes, and a fatal halt on a failed
repository listing. -/
theorem c9_witness :
    checkPullRequestCompliance (.error { msg := gs "fetch failed" }) rosterEmpty false =
      ({ compliant := false, nonComplianceReason := [], external := false },
       some { msg := gs "fetch failed" }) ∧
    (∃ outcomes, processRepo envCommitsFail specOrgWide rosterEmpty (gs "repo") = .ok outcomes ∧
      outcomes.length =
        ([{ number := 1, title := gs "a" }, { number := 2, title := gs "b" }] :
          List PullRequest).length) ∧
    processOrgRepo envRepoListFails specOrgWide rosterEmpty =
      .error (.fatal (gs "Error listing all repos in org")) := by
  refine ⟨c9_amended_error_granularity.1 { msg := gs "fetch failed" } rosterEmpty false,
    c9_amended_error_granularity.2.1 envCommitsFail specOrgWide rosterEmpty (gs "repo")
      [{ number := 1, title := gs "a" }, { number := 2, title := gs "b" }] (by rfl) (by rfl),
    c9_amended_error_granularity.2.2 envRepoListFails specOrgWide rosterEmpty
      { msg := gs "boom" } (by rfl) (by rfl)⟩

theorem lowerByte_idem (b : Nat) : lowerByte (lowerByte b) = lowerByte b := by
  unfold lowerByte
  split_ifs <;> omega

theorem goToLower_fixed (s : GoStr) : ∀ b ∈ goToLower s, lowerByte b = b := by
  intro b hb
  simp only [goToLower, List.mem_map] at hb
  obtain ⟨a, _, rfl⟩ := hb
  exact lowerByte_idem a

theorem goToLower_of_fixed (s : GoStr) (h : ∀ b ∈ s, lowerByte b = b) : goToLower s = s := by
  induction s with
  | nil => rfl
  | cons a tl ih =>
    simp only [goToLower, List.map_cons]
    rw [h a (by simp)]
    have htl : goToLower tl = tl := ih fun b hb => h b (by simp [hb])
    simp only [goToLower] at htl
    rw [htl]

theorem gmail_suffix_fixed : ∀ b ∈ gs "@gmail.com", lowerByte b = b := by decide

theorem googlemail_suffix_fixed : ∀ b ∈ gs "@googlemail.com", lowerByte b = b := by decide

theorem mem_trimSuffix (b : Nat) (s suf : GoStr) (h : b ∈ trimSuffix s suf) : b ∈ s := by
  unfold trimSuffix at h
  split at h
  · exact List.mem_of_mem_take h
  · exact h

theorem applyGmailSuffix_fixed (s suf : GoStr) (hs : ∀ b ∈ s, lowerByte b = b)
    (hsuf : ∀ b ∈ suf, lowerByte b = b) :
    ∀ b ∈ applyGmailSuffix s suf, lowerByte b = b := by
  intro b hb
  unfold applyGmailSuffix at hb
  by_cases h : hasSuffix s suf = true
  · simp only [h, if_true] at hb
    rcases List.mem_append.1 hb with h1 | h2
    · exact hs b (mem_trimSuffix b s suf (List.mem_of_mem_filter h1))
    · exact hsuf b h2
  · simp only [h, Bool.false_eq_true, if_false] at hb
    exact hs b hb

theorem canonicalizeEmail_eq (x : GoStr) :
    CanonicalizeEmail x =
      applyGmailSuffix (applyGmailSuffix (goToLower x) (gs "@gmail.com")) (gs "@googlemail.com") := by
  simp [CanonicalizeEmail, gmailSuffixes, List.foldl]

theorem canonicalizeEmail_fixed (x : GoStr) : ∀ b ∈ CanonicalizeEmail x, lowerByte b = b := by
  rw [canonicalizeEmail_eq]
  exact applyGmailSuffix_fixed _ _
    (applyGmailSuffix_fixed _ _ (goToLower_fixed x) gmail_suffix_fixed)
    googlemail_suffix_fixed

theorem hasSuffix_append_self (u suf : GoStr) : hasSuffix (u ++ suf) suf = true := by
  simp [hasSuffix]

theorem trimSuffix_append (u suf : GoStr) : trimSuffix (u ++ suf) suf = u := by
  unfold trimSuffix
  rw [if_pos]
  · rw [List.length_append, Nat.add_sub_cancel, List.take_left]
  · rw [hasSuffix_append_self]

theorem removeDots_idem (s : GoStr) : removeDots (removeDots s) = removeDots s := by
  simp [removeDots, List.filter_filter]

theorem hasSuffix_append_of_ne (u a b : GoStr) (hab : ¬ a <:+ b) (hba : ¬ b <:+ a) :
    hasSuffix (u ++ a) b = false := by
  by_contra h
  have hb : b <:+ u ++ a := by
    have hT : hasSuffix (u ++ a) b = true := by
      revert h
      cases hasSuffix (u ++ a) b <;> simp
    simpa [hasSuffix] using hT
  rcases List.suffix_or_suffix_of_suffix (List.suffix_append u a) hb with h1 | h2
  · exact hab h1
  · exact hba h2

theorem gmail_not_suffix_googlemail : ¬ (gs "@gmail.com") <:+ (gs "@googlemail.com") := by
  decide

theorem googlemail_not_suffix_gmail : ¬ (gs "@googlemail.com") <:+ (gs "@gmail.com") := by
  decide

theorem applyGmailSuffix_self (u suf : GoStr) (hu : removeDots u = u) :
    applyGmailSuffix (u ++ suf) suf = u ++ suf := by
  unfold applyGmailSuffix
  rw [if_pos]
  · rw [trimSuffix_append, hu]
  · rw [hasSuffix_append_self]

theorem canonicalizeEmail_idem (x : GoStr) :
    CanonicalizeEmail (CanonicalizeEmail x) = CanonicalizeEmail x := by
  have hlow : goToLower (CanonicalizeEmail x) = CanonicalizeEmail x :=
    goToLower_of_fixed _ (canonicalizeEmail_fixed x)
  rw [canonicalizeEmail_eq (CanonicalizeEmail x), hlow, canonicalizeEmail_eq x]
  by_cases h1 : hasSuffix (goToLower x) (gs "@gmail.com") = true
  · have e1 : applyGmailSuffix (goToLower x) (gs "@gmail.com") =
        removeDots (trimSuffix (goToLower x) (gs "@gmail.com")) ++ gs "@gmail.com" := by
      unfold applyGmailSuffix
      rw [if_pos h1]
    have h2 : hasSuffix
        (removeDots (trimSuffix (goToLower x) (gs "@gmail.com")) ++ gs "@gmail.com")
        (gs "@googlemail.com") = false :=
      hasSuffix_append_of_ne _ _ _ gmail_not_suffix_googlemail googlemail_not_suffix_gmail
    have e2 : applyGmailSuffix
        (removeDots (trimSuffix (goToLower x) (gs "@gmail.com")) ++ gs "@gmail.com")
        (gs "@googlemail.com") =
        removeDots (trimSuffix (goToLower x) (gs "@gmail.com")) ++ gs "@gmail.com" := by
      unfold applyGmailSuffix
      rw [h2]
      simp
    rw [e1, e2, applyGmailSuffix_self _ _ (removeDots_idem _), e2]
  · have e1 : applyGmailSuffix (goToLower x) (gs "@gmail.com") = goToLower x := by
      unfold applyGmailSuffix
      rw [if_neg h1]
    rw [e1]
    by_cases h2 : hasSuffix (goToLower x) (gs "@googlemail.com") = true
    · have e2 : applyGmailSuffix (goToLower x) (gs "@googlemail.com") =
          removeDots (trimSuffix (goToLower x) (gs "@googlemail.com")) ++ gs "@googlemail.com" := by
        unfold applyGmailSuffix
        rw [if_pos h2]
      have h3 : hasSuffix
          (removeDots (trimSuffix (goToLower x) (gs "@googlemail.com")) ++ gs "@googlemail.com")
          (gs "@gmail.com") = false :=
        hasSuffix_append_of_ne _ _ _ googlemail_not_suffix_gmail gmail_not_suffix_googlemail
      have e3 : applyGmailSuffix
          (removeDots (trimSuffix (goToLower x) (gs "@googlemail.com")) ++ gs "@googlemail.com")
          (gs "@gmail.com") =
          removeDots (trimSuffix (goToLower x) (gs "@googlemail.com")) ++ gs "@googlemail.com" := by
        unfold applyGmailSuffix
        rw [h3]
        simp
      rw [e2, e3, applyGmailSuffix_self _ _ (removeDots_idem _)]
    · have e2 : applyGmailSuffix (goToLower x) (gs "@googlemail.com") = goToLower x := by
        unfold applyGmailSuffix
        rw [if_neg h2]
      rw [e2, e1, e2]

/-- C8: email canonicalization is idempotent, and for the Gmail domain
variants dots in the local part are insignificant. -/
theorem c8_canonicalization :
    (∀ x, CanonicalizeEmail (CanonicalizeEmail x) = CanonicalizeEmail x) ∧
    CanonicalizeEmail (gs "a.b@gmail.com") = CanonicalizeEmail (gs "ab@gmail.com") :=
  ⟨canonicalizeEmail_idem, by decide⟩

end CrBot
